import Mathlib

/-!
# Verification of the helium-interpreter lexer and parser

Shallow embedding of the lexical scanner in `src/common.c` / the lexer unit
concatenated into it, and of the recursive-descent / shunting-yard parser in
the parser unit of the repository.  Machine integers of the C sources (`int`
fields of `lxpos`, parser positions) are modelled as `Int` / `Nat`; the
source buffer is a `List Char`.  Reading the byte at an index outside the
buffer (the C code keeps a `'\0'` terminator one past the last byte) is
modelled by `getChar`, which yields `'\0'` there; reading strictly past the
terminator is undefined behaviour in C and is modelled as the distinguished
`stuck` outcome.

The headers `lex.h` and `parser.h` are not part of the sources; the
constructor lists of `lxtype` and `asttype` are assembled from every
constant the `.c` files use (the numeric enum values are never needed).
-/

/-! ## Character classes (ASCII model of ctype.h) -/

def isalpha (c : Char) : Bool :=
  ('a' ≤ c && c ≤ 'z') || ('A' ≤ c && c ≤ 'Z')

def isdigit (c : Char) : Bool :=
  '0' ≤ c && c ≤ '9'

def isalnum (c : Char) : Bool :=
  isalpha c || isdigit c

/-! ## Token data model (`lxpos`, `lxtype`, `lxtoken`) -/

structure lxpos where
  col_pos : Int
  line_pos : Int
  char_offset : Int
  line_offset : Int
deriving DecidableEq

/-- Token kinds: union of the constants used by the lexer unit
(`lxtype_strings` in common.c) and by the parser unit. -/
inductive lxtype where
  | LX_SYMBOL
  | LX_INTEGER
  | LX_OPERATOR
  | LX_EOF
  | LX_COMMENT
  | LX_NEWLINE
  | LX_WHITESPACE
  | LX_LEFT_PAREN
  | LX_RIGHT_PAREN
  | LX_LEFT_BRACE
  | LX_RIGHT_BRACE
  | LX_ASSIGN
  | LX_STRING
  | LX_FUNCTION
  | LX_CALL
  | LX_BLOCK
  | LX_SEPARATOR
  | LX_BOOL
  | LX_NULL
  | LX_RETURN
  | LX_FLOAT
  | LX_LOOP
  | LX_IF
  | LX_ELSE
  | LX_INCLUDE
  | LX_LEFT_SQUARE
  | LX_RIGHT_SQUARE
  | LX_DOT
  | LX_COLON
deriving DecidableEq

structure lxtoken where
  value : List Char
  type : lxtype
  pos : lxpos
deriving DecidableEq

/-! ## Lexer state

The C `lexer` caches `current` and `lookahead`; both are maintained equal to
`source[char_offset]` / `source[char_offset + 1]` at all times (set in
`lexer_new` and re-established by every `lexadvance`), so they are embedded
as derived reads instead of stored fields. -/

structure lexer where
  source : List Char
  pos : lxpos
deriving DecidableEq

/-- Byte read of the source buffer at an `int` index.  Index `s.length` is
the `'\0'` terminator `read_file` appends; out-of-range indices also give
`'\0'` (any further modelling of out-of-range reads is done by the caller,
see `strScan`). -/
def getChar (s : List Char) (i : Int) : Char :=
  if 0 ≤ i ∧ i < (s.length : Int) then s.getD i.toNat '\x00' else '\x00'

def lexer.lookahead (lx : lexer) : Char :=
  getChar lx.source (lx.pos.char_offset + 1)

def lexer_new (src : List Char) : lexer :=
  { source := src
    pos := { col_pos := -1, line_pos := 0, char_offset := -1, line_offset := 0 } }

/-- `lexadvance`: consume one character, returning it (the C function's
return value `lx->current`) together with the advanced state. -/
def lexadvance (lx : lexer) : Char × lexer :=
  let cur := lx.lookahead
  let off := lx.pos.char_offset + 1
  let pos :=
    if cur = '\n' then
      { col_pos := -1, line_pos := lx.pos.line_pos + 1,
        char_offset := off, line_offset := off + 1 : lxpos }
    else
      { col_pos := lx.pos.col_pos + 1, line_pos := lx.pos.line_pos,
        char_offset := off, line_offset := lx.pos.line_offset : lxpos }
  (cur, { lx with pos := pos })

def advanceN : Nat → lexer → lexer
  | 0, lx => lx
  | n + 1, lx => advanceN n (lexadvance lx).2

/-- The pure test of `check_pattern`: `source[char_offset + i + 1] = pattern[i]`
for every `i` below the pattern's length. -/
def matchesAt (s : List Char) (i : Int) : List Char → Bool
  | [] => true
  | c :: rest => (getChar s i = c) && matchesAt s (i + 1) rest

def patternMatches (lx : lexer) (pattern : List Char) : Bool :=
  matchesAt lx.source (lx.pos.char_offset + 1) pattern

/-- `check_pattern`: on a match the lexer is advanced once per pattern
character, otherwise it is left untouched. -/
def check_pattern (lx : lexer) (pattern : List Char) : Bool × lexer :=
  if patternMatches lx pattern then (true, advanceN pattern.length lx) else (false, lx)

/-- `determine_nature`: reserved-word table of the lexer unit in src.
Only `false`/`true`, `null` and `return` are recognized there. -/
def determine_nature (s : List Char) : lxtype :=
  if s = "false".toList ∨ s = "true".toList then .LX_BOOL
  else if s = "null".toList then .LX_NULL
  else if s = "return".toList then .LX_RETURN
  else .LX_SYMBOL

def identCond (c : Char) : Bool :=
  isalnum c || isdigit c || c = '_'

/-- Identifier do-while loop of `lex`.  The `gas` argument is a recursion
bound; `lex` passes `source.length + 2`, which always exceeds the number of
iterations the loop can make (each iteration advances `char_offset`, and once
it passes the end of the buffer the lookahead is `'\0'`, which is not an
identifier character). -/
def scanIdent : Nat → List Char → lexer → List Char × lexer
  | 0, buf, lx => (buf, lx)
  | gas + 1, buf, lx =>
    let r := lexadvance lx
    let buf2 := buf ++ [r.1]
    if identCond r.2.lookahead then scanIdent gas buf2 r.2 else (buf2, r.2)

/-- Digit do-while loop of `lex`; same bounding as `scanIdent`. -/
def scanDigits : Nat → List Char → lexer → List Char × lexer
  | 0, buf, lx => (buf, lx)
  | gas + 1, buf, lx =>
    let r := lexadvance lx
    let buf2 := buf ++ [r.1]
    if isdigit r.2.lookahead then scanDigits gas buf2 r.2 else (buf2, r.2)

/-- String-body loop of `lex`: `while ((c = lexadvance(lx)) != '"') buf[len++] = c;`.
The C loop has no end-of-input check, so when no closing quote exists it runs
past the `'\0'` terminator into unallocated memory; that is modelled by
returning `none` once the consumed index exceeds the terminator's index
(`source.length`). -/
def strScan : Nat → List Char → lexer → Option (List Char × lexer)
  | 0, _, _ => none
  | gas + 1, buf, lx =>
    let r := lexadvance lx
    if r.1 = '"' then some (buf, r.2)
    else if r.2.pos.char_offset > (lx.source.length : Int) then none
    else strScan gas (buf ++ [r.1]) r.2

/-- Result of one `lex` call: a token plus the advanced lexer, the
`lexerror` exit, or the undefined behaviour of the unterminated-string loop. -/
inductive lexres where
  | ok (tk : lxtoken) (lx : lexer)
  | err (msg : String) (lx : lexer)
  | stuck
deriving DecidableEq

/-- Position stamped on the emitted token: the cloned cursor advanced by one
column and one character (the first character of the token). -/
def advpos (lx : lexer) : lxpos :=
  { lx.pos with col_pos := lx.pos.col_pos + 1, char_offset := lx.pos.char_offset + 1 }

def opChars : List Char :=
  ['+', '-', '/', '*', '%', '<', '>', '&', '|', '^', '~']

/-- One step of the scanner (`lex` in the lexer unit). -/
def lex (lx : lexer) : lexres :=
  let pos := advpos lx
  let la := lx.lookahead
  let gas := lx.source.length + 2
  if isalpha la || la = '_' then
    let r := scanIdent gas [] lx
    .ok { value := r.1, type := determine_nature r.1, pos := pos } r.2
  else if isdigit la then
    let r := scanDigits gas [] lx
    .ok { value := r.1, type := .LX_INTEGER, pos := pos } r.2
  else if la = '"' then
    let opening := lexadvance lx
    match strScan gas [] opening.2 with
    | some r => .ok { value := r.1, type := .LX_STRING, pos := pos } r.2
    | none => .stuck
  else
    let p1 := check_pattern lx ['<', '-']
    if p1.1 then .ok { value := [], type := .LX_ASSIGN, pos := pos } p1.2
    else
      let p2 := check_pattern lx ['<', '=']
      if p2.1 then .ok { value := [], type := .LX_OPERATOR, pos := pos } p2.2
      else
        let p3 := check_pattern lx ['>', '=']
        if p3.1 then .ok { value := [], type := .LX_OPERATOR, pos := pos } p3.2
        else
          let r := lexadvance lx
          let c := r.1
          let lx1 := r.2
          if c = '\x00' then .ok { value := [], type := .LX_EOF, pos := pos } lx1
          else if c = '\n' then .ok { value := [], type := .LX_NEWLINE, pos := pos } lx1
          else if c = ' ' ∨ c = '\r' ∨ c = '\t' then
            .ok { value := [], type := .LX_WHITESPACE, pos := pos } lx1
          else if c = '{' then .ok { value := [], type := .LX_LEFT_BRACE, pos := pos } lx1
          else if c = '}' then .ok { value := [], type := .LX_RIGHT_BRACE, pos := pos } lx1
          else if opChars.contains c then
            .ok { value := [c], type := .LX_OPERATOR, pos := pos } lx1
          else if c = '(' then .ok { value := [], type := .LX_LEFT_PAREN, pos := pos } lx1
          else if c = ')' then .ok { value := [], type := .LX_RIGHT_PAREN, pos := pos } lx1
          else if c = '#' then .ok { value := [], type := .LX_COMMENT, pos := pos } lx1
          else if c = '@' then .ok { value := [], type := .LX_CALL, pos := pos } lx1
          else if c = ',' then .ok { value := [], type := .LX_SEPARATOR, pos := pos } lx1
          else if c = '$' then .ok { value := [], type := .LX_FUNCTION, pos := pos } lx1
          else .err ("Syntax error! Failed to identify symbol") lx1

/-- Result of `lexify`: the token vector, the `lexerror` exit, or
non-termination (out of fuel / undefined behaviour inside `lex`). -/
inductive lexifyres where
  | ok (tokens : List lxtoken)
  | err (msg : String)
  | diverge
deriving DecidableEq

/-- `lexify`: pushes every non-whitespace, non-comment token until `lex`
yields `LX_EOF`, then pushes that final token. -/
def lexify : Nat → lexer → List lxtoken → lexifyres
  | 0, _, _ => .diverge
  | fuel + 1, lx, acc =>
    match lex lx with
    | .ok tk lx1 =>
      if tk.type = .LX_EOF then .ok (acc ++ [tk])
      else if tk.type ≠ .LX_WHITESPACE ∧ tk.type ≠ .LX_COMMENT then
        lexify fuel lx1 (acc ++ [tk])
      else lexify fuel lx1 acc
    | .err m _ => .err m
    | .stuck => .diverge

/-! Projection helpers used to state concrete scanner runs. -/

def lex1type (src : List Char) : Option lxtype :=
  match lex (lexer_new src) with
  | .ok tk _ => some tk.type
  | _ => none

def lex1value (src : List Char) : Option (List Char) :=
  match lex (lexer_new src) with
  | .ok tk _ => some tk.value
  | _ => none

def lexedTypes (fuel : Nat) (src : List Char) : Option (List lxtype) :=
  match lexify fuel (lexer_new src) [] with
  | .ok ts => some (ts.map lxtoken.type)
  | _ => none

def lexedValues (fuel : Nat) (src : List Char) : Option (List (List Char)) :=
  match lexify fuel (lexer_new src) [] with
  | .ok ts => some (ts.map lxtoken.value)
  | _ => none

/-! ## AST data model (`asttype`, `astnode`)

`parse_block` passes the token-kind constant `LX_BLOCK` where an `asttype`
is expected (the two C enums are mixed up there); with the headers absent
the numeric overlap is unknowable, so the block nodes are embedded with the
`AST_BLOCK` tag the rest of the parser compares against. -/

inductive asttype where
  | AST_INTEGER
  | AST_FLOAT
  | AST_BOOL
  | AST_STRING
  | AST_NULL
  | AST_REFERENCE
  | AST_ASSIGN
  | AST_BINARY_EXPRESSION
  | AST_UNARY_EXPRESSION
  | AST_CALL
  | AST_FUNCTION
  | AST_PARAMS
  | AST_PARAM
  | AST_LOOP
  | AST_BRANCHES
  | AST_RETURN
  | AST_INCLUDE
  | AST_TABLE
  | AST_KV_PAIR
  | AST_PUT
  | AST_GET
  | AST_BLOCK
deriving DecidableEq

inductive astnode where
  | mk (value : List Char) (type : asttype) (pos : lxpos) (children : List astnode)

def astnode.value : astnode → List Char
  | .mk v _ _ _ => v

def astnode.type : astnode → asttype
  | .mk _ t _ _ => t

def astnode.pos : astnode → lxpos
  | .mk _ _ p _ => p

def astnode.children : astnode → List astnode
  | .mk _ _ _ c => c

def pushChild : astnode → astnode → astnode
  | .mk v t p cs, c => .mk v t p (cs ++ [c])

/-! ## Parser state and token traversal -/

structure parser where
  tokens : List lxtoken
  position : Nat
deriving DecidableEq

def pos0 : lxpos := { col_pos := 0, line_pos := 0, char_offset := 0, line_offset := 0 }

/-- Placeholder for the (undefined-behaviour) out-of-range `vector_get`;
every observed read is in range because `is_empty` short-circuits first. -/
def eof_token : lxtoken := { value := [], type := .LX_EOF, pos := pos0 }

def parser.peek (p : parser) : lxtoken :=
  p.tokens.getD p.position eof_token

def parser.lookahead (p : parser) : Option lxtoken :=
  if p.position + 1 < p.tokens.length then p.tokens.get? (p.position + 1) else none

def parser.is_empty (p : parser) : Bool :=
  p.position ≥ p.tokens.length || p.peek.type = .LX_EOF

def parser.eat (p : parser) : Option lxtoken × parser :=
  if !p.is_empty then (some p.peek, { p with position := p.position + 1 })
  else (none, p)

/-- Parse-stage failures: `msg` models the `parsererror` exit, `fuel` the
recursion bound of the embedding running out. -/
inductive perr where
  | msg (s : String)
  | fuel
deriving DecidableEq

deriving instance DecidableEq for Except

def parser.consume (p : parser) (t : lxtype) : Except perr (lxtoken × parser) :=
  if !p.is_empty && p.peek.type = t then
    match p.eat with
    | (some tk, p1) => .ok (tk, p1)
    | (none, _) => .error (.msg ("Unexpected token"))
  else .error (.msg ("Unexpected token"))

def parser.consume_optional (p : parser) (t : lxtype) : Bool × parser :=
  if !p.is_empty && p.peek.type = t then (true, p.eat.2) else (false, p)

def stripGo : Nat → parser → parser
  | 0, p => p
  | n + 1, p =>
    let r := p.consume_optional .LX_NEWLINE
    if r.1 then stripGo n r.2 else p

/-- `strip_newlines`: `while (consume_optional(p, LX_NEWLINE));` — bounded by
the number of tokens left, which the loop cannot exceed. -/
def strip_newlines (p : parser) : parser :=
  stripGo (p.tokens.length - p.position) p

/-! ## Expression machinery of the parser unit -/

/-- `precedence` (parser unit): explicit string matches first, then the
switch on the first character of the value (`'\0'` for an empty value).
The `parsererror` exit is the `.error` case. -/
def precedence (op : lxtoken) : Except perr Int :=
  if op.value = "<=".toList ∨ op.value = ">=".toList then .ok 8
  else if op.value = "==".toList ∨ op.value = "!=".toList then .ok 7
  else if op.value = "&&".toList then .ok 3
  else if op.value = "||".toList then .ok 2
  else
    let c := op.value.getD 0 '\x00'
    if c = '|' then .ok 4
    else if c = '^' then .ok 5
    else if c = '&' then .ok 6
    else if c = '<' ∨ c = '>' then .ok 8
    else if c = '+' ∨ c = '-' then .ok 9
    else if c = '*' ∨ c = '/' ∨ c = '%' then .ok 10
    else .error (.msg ("Unknown operator recieved"))

/-- Placeholder for operand-stack underflow in `apply_op` (undefined
behaviour in C; never reached, the shunting-yard invariant keeps one more
operand than operators). -/
def null_node : astnode := .mk [] .AST_NULL pos0 []

/-- `apply_op`: pops the operator and two operands, and builds the binary
node with the earlier operand `v0` as first child.  Returns the node
(pushed back by the caller) with the remaining stacks. -/
def apply_op (operands : List astnode) (operators : List lxtoken) :
    astnode × List astnode × List lxtoken :=
  let op := operators.headD eof_token
  let ops := operators.tail
  let v1 := operands.headD null_node
  let v0 := operands.tail.headD null_node
  let vs := operands.tail.tail
  (.mk op.value .AST_BINARY_EXPRESSION op.pos [v0, v1], vs, ops)

/-- Inner shunting-yard loop of `parse_expression`:
`while (operators.size > 0 && precedence(p, op) <= precedence(p, top))`. -/
def shuntPending (op : lxtoken) : List astnode → List lxtoken →
    Except perr (List astnode × List lxtoken)
  | prims, [] => .ok (prims, [])
  | prims, top :: ops =>
    match precedence op, precedence top with
    | .ok a, .ok b =>
      if a ≤ b then
        let r := apply_op prims (top :: ops)
        shuntPending op (r.1 :: r.2.1) ops
      else .ok (prims, top :: ops)
    | .error e, _ => .error e
    | _, .error e => .error e

/-- Final drain of `parse_expression`: apply every remaining operator. -/
def drainOps : List astnode → List lxtoken → List astnode
  | prims, [] => prims
  | prims, top :: ops =>
    let r := apply_op prims (top :: ops)
    drainOps (r.1 :: r.2.1) ops

/-! ## The recursive-descent parser

The mutually recursive `parse_*` functions of the parser unit are embedded
as one fuel-indexed function over a mode tag; each C function is one mode
(loop bodies that the C writes with `while`/`do` get their own mode carrying
the accumulator).  Fuel only bounds the recursion depth; every claim about
the parser is stated for an arbitrary fuel or with enough fuel for the
concrete input. -/

inductive pmode where
  | statement
  | expression
  | exprLoop (prims : List astnode) (ops : List lxtoken)
  | primary
  | block (terminal : lxtype)
  | blockLoop (terminal : lxtype) (blk : astnode)
  | functionCall
  | callArgs (fcall : astnode)
  | functionDef
  | fnParams (params : astnode)
  | loopStmt
  | branching
  | elseChain
  | tableInstance
  | tableEntries (table : astnode)
  | tablePut
  | tableGet

def bindTok (r : Except perr (lxtoken × parser))
    (f : lxtoken → parser → Except perr (Option astnode × parser)) :
    Except perr (Option astnode × parser) :=
  match r with
  | .ok (tk, p) => f tk p
  | .error e => .error e

def bindNode (r : Except perr (Option astnode × parser))
    (f : astnode → parser → Except perr (Option astnode × parser)) :
    Except perr (Option astnode × parser) :=
  match r with
  | .ok (some nd, p) => f nd p
  | .ok (none, _) => .error (.msg ("internal"))
  | .error e => .error e

def parseGo : Nat → pmode → parser → Except perr (Option astnode × parser)
  | 0, _, _ => .error .fuel
  | n + 1, mode, p =>
    match mode with
    | .block term =>
      let blk : astnode := .mk ("block".toList) .AST_BLOCK p.peek.pos []
      parseGo n (.blockLoop term blk) (strip_newlines p)
    | .blockLoop term blk =>
      if !p.is_empty && !(p.peek.type = term) then
        bindNode (parseGo n .statement p) fun st p1 =>
          parseGo n (.blockLoop term (pushChild blk st)) (strip_newlines p1)
      else .ok (some blk, p)
    | .statement =>
      let pos := p.peek.pos
      match p.peek.type with
      | .LX_SYMBOL =>
        if (p.lookahead.map lxtoken.type = some .LX_LEFT_SQUARE) ∨
            (p.lookahead.map lxtoken.type = some .LX_DOT) then
          parseGo n .tablePut p
        else
          match p.eat with
          | (some tok, p1) =>
            bindTok (p1.consume .LX_ASSIGN) fun _ p2 =>
              bindNode (parseGo n .expression p2) fun e p3 =>
                .ok (some (.mk tok.value .AST_ASSIGN pos [e]), p3)
          | (none, _) => .error (.msg ("internal"))
      | .LX_CALL => parseGo n .functionCall p
      | .LX_LOOP => parseGo n .loopStmt p
      | .LX_IF => parseGo n .branching p
      | .LX_INCLUDE =>
        let p1 := p.eat.2
        bindNode (parseGo n .primary p1) fun fp p2 =>
          if fp.type = .AST_STRING then
            .ok (some (.mk ("include".toList) .AST_INCLUDE pos [fp]), p2)
          else .error (.msg ("Expected string in include statement!"))
      | .LX_RETURN =>
        let p1 := p.eat.2
        bindNode (parseGo n .expression p1) fun e p2 =>
          .ok (some (.mk ("ret".toList) .AST_RETURN pos [e]), p2)
      | _ => .error (.msg ("Invalid statement!"))
    | .expression =>
      bindNode (parseGo n .primary p) fun pr p1 =>
        parseGo n (.exprLoop [pr] []) p1
    | .exprLoop prims ops =>
      if !p.is_empty && p.peek.type = .LX_OPERATOR then
        match p.eat with
        | (some op, p1) =>
          match shuntPending op prims ops with
          | .ok (prims1, ops1) =>
            bindNode (parseGo n .primary p1) fun pr p2 =>
              parseGo n (.exprLoop (pr :: prims1) (op :: ops1)) p2
          | .error e => .error e
        | (none, _) => .error (.msg ("internal"))
      else .ok (some ((drainOps prims ops).headD null_node), p)
    | .primary =>
      if p.is_empty then .error (.msg ("Program has ended prematurely!"))
      else
        let pos := p.peek.pos
        match p.peek.type with
        | .LX_INTEGER => .ok (some (.mk p.peek.value .AST_INTEGER pos []), p.eat.2)
        | .LX_FLOAT => .ok (some (.mk p.peek.value .AST_FLOAT pos []), p.eat.2)
        | .LX_BOOL => .ok (some (.mk p.peek.value .AST_BOOL pos []), p.eat.2)
        | .LX_STRING => .ok (some (.mk p.peek.value .AST_STRING pos []), p.eat.2)
        | .LX_NULL => .ok (some (.mk p.peek.value .AST_NULL pos []), p.eat.2)
        | .LX_LEFT_BRACE => parseGo n .tableInstance p
        | .LX_SYMBOL =>
          if (p.lookahead.map lxtoken.type = some .LX_LEFT_SQUARE) ∨
              (p.lookahead.map lxtoken.type = some .LX_DOT) then
            parseGo n .tableGet p
          else .ok (some (.mk p.peek.value .AST_REFERENCE pos []), p.eat.2)
        | .LX_FUNCTION => parseGo n .functionDef p
        | .LX_CALL => parseGo n .functionCall p
        | .LX_LEFT_PAREN =>
          bindTok (p.consume .LX_LEFT_PAREN) fun _ p1 =>
            bindNode (parseGo n .expression p1) fun e p2 =>
              bindTok (p2.consume .LX_RIGHT_PAREN) fun _ p3 =>
                .ok (some e, p3)
        | .LX_OPERATOR =>
          if p.peek.value ≠ "-".toList ∧ p.peek.value ≠ "+".toList ∧
              p.peek.value ≠ "!".toList ∧ p.peek.value ≠ "~".toList then
            .error (.msg ("Invalid unary operator"))
          else
            match p.eat with
            | (some tok, p1) =>
              bindNode (parseGo n .primary p1) fun c p2 =>
                .ok (some (.mk tok.value .AST_UNARY_EXPRESSION pos [c]), p2)
            | (none, _) => .error (.msg ("internal"))
        | _ => .error (.msg ("Unexpected token found"))
    | .functionCall =>
      bindTok (p.consume .LX_CALL) fun _ p1 =>
        let pos := p1.peek.pos
        let val := p1.peek.value
        bindNode (parseGo n .expression p1) fun callee p2 =>
          bindTok (p2.consume .LX_LEFT_PAREN) fun _ p3 =>
            let fcall : astnode := .mk val .AST_CALL pos [callee]
            bindNode
              (if !p3.is_empty && !(p3.peek.type = .LX_RIGHT_PAREN) then
                parseGo n (.callArgs fcall) p3
              else .ok (some fcall, p3)) fun fcall1 p4 =>
              bindTok (p4.consume .LX_RIGHT_PAREN) fun _ p5 =>
                .ok (some fcall1, p5)
    | .callArgs fcall =>
      bindNode (parseGo n .expression p) fun arg p1 =>
        let fcall1 := pushChild fcall arg
        let r := p1.consume_optional .LX_SEPARATOR
        if r.1 then parseGo n (.callArgs fcall1) r.2 else .ok (some fcall1, r.2)
    | .functionDef =>
      bindTok (p.consume .LX_FUNCTION) fun ftok p1 =>
        bindTok (p1.consume .LX_LEFT_PAREN) fun ptok p2 =>
          let params : astnode := .mk ("args".toList) .AST_PARAMS ptok.pos []
          bindNode
            (if !(p2.peek.type = .LX_RIGHT_PAREN) then parseGo n (.fnParams params) p2
            else .ok (some params, p2)) fun params1 p3 =>
            bindTok (p3.consume .LX_RIGHT_PAREN) fun _ p4 =>
              bindTok ((strip_newlines p4).consume .LX_LEFT_BRACE) fun _ p5 =>
                bindNode (parseGo n (.block .LX_RIGHT_BRACE) p5) fun body p6 =>
                  bindTok (p6.consume .LX_RIGHT_BRACE) fun _ p7 =>
                    .ok (some (.mk ("code".toList) .AST_FUNCTION ftok.pos [params1, body]), p7)
    | .fnParams params =>
      bindTok (p.consume .LX_SYMBOL) fun tk p1 =>
        let params1 := pushChild params (.mk tk.value .AST_PARAM tk.pos [])
        let r := p1.consume_optional .LX_SEPARATOR
        if r.1 then parseGo n (.fnParams params1) r.2 else .ok (some params1, r.2)
    | .loopStmt =>
      bindTok (p.consume .LX_LOOP) fun ltok p1 =>
        bindNode (parseGo n .expression p1) fun cond p2 =>
          bindTok ((strip_newlines p2).consume .LX_LEFT_BRACE) fun _ p3 =>
            bindNode (parseGo n (.block .LX_RIGHT_BRACE) p3) fun body p4 =>
              bindTok (p4.consume .LX_RIGHT_BRACE) fun _ p5 =>
                .ok (some (.mk ("loop".toList) .AST_LOOP ltok.pos [cond, body]), p5)
    | .branching =>
      bindTok (p.consume .LX_IF) fun itok p1 =>
        bindNode (parseGo n .expression p1) fun cond p2 =>
          bindTok ((strip_newlines p2).consume .LX_LEFT_BRACE) fun _ p3 =>
            bindNode (parseGo n (.block .LX_RIGHT_BRACE) p3) fun body p4 =>
              bindTok (p4.consume .LX_RIGHT_BRACE) fun _ p5 =>
                match parseGo n .elseChain (strip_newlines p5) with
                | .ok (rest, p6) =>
                  .ok (some (.mk ("conditional".toList) .AST_BRANCHES itok.pos
                    ([cond, body] ++ rest.toList)), p6)
                | .error e => .error e
    | .elseChain =>
      if p.peek.type = .LX_ELSE then
        match p.eat with
        | (some etok, p1) =>
          let r := p1.consume_optional .LX_IF
          if r.1 then
            bindNode (parseGo n .expression r.2) fun cond p2 =>
              bindTok ((strip_newlines p2).consume .LX_LEFT_BRACE) fun _ p3 =>
                bindNode (parseGo n (.block .LX_RIGHT_BRACE) p3) fun body p4 =>
                  bindTok (p4.consume .LX_RIGHT_BRACE) fun _ p5 =>
                    match parseGo n .elseChain (strip_newlines p5) with
                    | .ok (rest, p6) =>
                      .ok (some (.mk ("conditional".toList) .AST_BRANCHES etok.pos
                        ([cond, body] ++ rest.toList)), p6)
                    | .error e => .error e
          else
            bindTok ((strip_newlines r.2).consume .LX_LEFT_BRACE) fun _ p3 =>
              bindNode (parseGo n (.block .LX_RIGHT_BRACE) p3) fun body p4 =>
                bindTok (p4.consume .LX_RIGHT_BRACE) fun _ p5 =>
                  .ok (some (.mk ("alt".toList) .AST_BRANCHES etok.pos [body]),
                    strip_newlines p5)
        | (none, _) => .error (.msg ("internal"))
      else .ok (none, p)
    | .tableInstance =>
      bindTok (p.consume .LX_LEFT_BRACE) fun btok p1 =>
        let table : astnode := .mk ("table".toList) .AST_TABLE btok.pos []
        let p2 := strip_newlines p1
        bindNode
          (if !(p2.peek.type = .LX_RIGHT_BRACE) then parseGo n (.tableEntries table) p2
          else .ok (some table, p2)) fun table1 p3 =>
          bindTok (p3.consume .LX_RIGHT_BRACE) fun _ p4 =>
            .ok (some table1, p4)
    | .tableEntries table =>
      let p0 := strip_newlines p
      let pos := p0.peek.pos
      bindNode (parseGo n .expression p0) fun k p1 =>
        bindTok (p1.consume .LX_COLON) fun _ p2 =>
          bindNode (parseGo n .expression p2) fun v p3 =>
            let p4 := strip_newlines p3
            let table1 := pushChild table (.mk ("pair".toList) .AST_KV_PAIR pos [k, v])
            let r := p4.consume_optional .LX_SEPARATOR
            if r.1 then parseGo n (.tableEntries table1) r.2 else .ok (some table1, r.2)
    | .tablePut =>
      bindTok (p.consume .LX_SYMBOL) fun var p1 =>
        let put0 : astnode := .mk var.value .AST_PUT var.pos []
        let r := p1.consume_optional .LX_LEFT_SQUARE
        bindNode
          (if r.1 then
            bindNode (parseGo n .expression r.2) fun k p2 =>
              bindTok (p2.consume .LX_RIGHT_SQUARE) fun _ p3 =>
                .ok (some (pushChild put0 k), p3)
          else
            let r2 := r.2.consume_optional .LX_DOT
            if r2.1 then
              bindTok (r2.2.consume .LX_SYMBOL) fun tk p2 =>
                .ok (some (pushChild put0 (.mk tk.value .AST_STRING tk.pos [])), p2)
            else .ok (some put0, r2.2)) fun put1 p4 =>
          bindTok (p4.consume .LX_ASSIGN) fun _ p5 =>
            bindNode (parseGo n .expression p5) fun e p6 =>
              .ok (some (pushChild put1 e), p6)
    | .tableGet =>
      bindTok (p.consume .LX_SYMBOL) fun var p1 =>
        let get0 : astnode := .mk var.value .AST_GET var.pos []
        let r := p1.consume_optional .LX_LEFT_SQUARE
        if r.1 then
          bindNode (parseGo n .expression r.2) fun k p2 =>
            bindTok (p2.consume .LX_RIGHT_SQUARE) fun _ p3 =>
              .ok (some (pushChild get0 k), p3)
        else
          let r2 := r.2.consume_optional .LX_DOT
          if r2.1 then
            bindTok (r2.2.consume .LX_SYMBOL) fun tk p2 =>
              .ok (some (pushChild get0 (.mk tk.value .AST_STRING tk.pos [])), p2)
          else .ok (some get0, r2.2)

/-! Named entry points mirroring the C functions. -/

def parse_expression (fuel : Nat) (p : parser) : Except perr (Option astnode × parser) :=
  parseGo fuel .expression p

def parse_primary (fuel : Nat) (p : parser) : Except perr (Option astnode × parser) :=
  parseGo fuel .primary p

def parse_block (fuel : Nat) (p : parser) (term : lxtype) :
    Except perr (Option astnode × parser) :=
  parseGo fuel (.block term) p

def parse_branching (fuel : Nat) (p : parser) : Except perr (Option astnode × parser) :=
  parseGo fuel .branching p

def parse_statement (fuel : Nat) (p : parser) : Except perr (Option astnode × parser) :=
  parseGo fuel .statement p

/-- `parse`: the whole token stream as one block terminated by `LX_EOF`. -/
def parse (fuel : Nat) (p : parser) : Except perr (Option astnode × parser) :=
  parse_block fuel p .LX_EOF

/-! ## Process exit model (main.c, common.c, parser unit)

Every failure helper in the sources terminates the process with `exit(0)`:
`file_error` and `failure` in common.c, `lexerror` at the end of the lexer
unit, `parsererror` at the end of the parser unit; `main` returns `0` after a
successful run (main.c). -/

inductive run_outcome where
  | success
  | file_error
  | general_failure
  | lex_error
  | parse_error
deriving DecidableEq

def exit_status : run_outcome → Nat
  | .success => 0
  | .file_error => 0
  | .general_failure => 0
  | .lex_error => 0
  | .parse_error => 0

/-! ## Concrete tokens and trees used to state claims about the parser -/

def mktk (t : lxtype) (v : List Char) : lxtoken := { value := v, type := t, pos := pos0 }

def tkInt (v : List Char) : lxtoken := mktk .LX_INTEGER v

def tkOp (v : List Char) : lxtoken := mktk .LX_OPERATOR v

def tkEof : lxtoken := mktk .LX_EOF []

def toks3 (g1 g2 : List Char) : List lxtoken :=
  [tkInt ['1'], tkOp g1, tkInt ['2'], tkOp g2, tkInt ['3'], tkEof]

def mkP3 (g1 g2 : List Char) : parser := { tokens := toks3 g1 g2, position := 0 }

def p3Done (g1 g2 : List Char) : parser := { tokens := toks3 g1 g2, position := 5 }

def intNode (v : List Char) : astnode := .mk v .AST_INTEGER pos0 []

def binNode (g : List Char) (l r : astnode) : astnode :=
  .mk g .AST_BINARY_EXPRESSION pos0 [l, r]

/-- `(1 OP1 2) OP2 3` — the left-grouped tree. -/
def leftTree (g1 g2 : List Char) : astnode :=
  binNode g2 (binNode g1 (intNode ['1']) (intNode ['2'])) (intNode ['3'])

/-- `1 OP1 (2 OP2 3)` — the right-grouped tree. -/
def rightTree (g1 g2 : List Char) : astnode :=
  binNode g1 (intNode ['1']) (binNode g2 (intNode ['2']) (intNode ['3']))

/-- The operator spellings the parser's `precedence` accepts. -/
def glyphList : List (List Char) :=
  [['*'], ['/'], ['%'], ['+'], ['-'], ['<'], ['>'],
   ['<', '='], ['>', '='], ['=', '='], ['!', '='],
   ['&'], ['^'], ['|'], ['&', '&'], ['|', '|']]

/-- Numeric precedence of an accepted glyph (`0` only off the table). -/
def precVal (g : List Char) : Int :=
  match precedence (tkOp g) with
  | .ok v => v
  | .error _ => 0

/-- The single characters the first-character switch of `precedence` accepts. -/
def precSingles : List Char :=
  ['*', '/', '%', '+', '-', '<', '>', '&', '^', '|']

/-! ## Shape of an if / else-if / else chain -/

/-- Well-formed branch chain as produced by `parse_branching`: every
`Branches` node is either a `"conditional"` node whose children are the
condition, the body block, and optionally the next chained branch (as last
child), or an `"alt"` node with exactly the body block — after which
nothing is chained. -/
inductive BranchChainOk : astnode → Prop where
  | alt (pos : lxpos) (b : astnode) (hb : b.type = .AST_BLOCK) :
      BranchChainOk (.mk ("alt".toList) .AST_BRANCHES pos [b])
  | condLast (pos : lxpos) (c b : astnode) (hb : b.type = .AST_BLOCK) :
      BranchChainOk (.mk ("conditional".toList) .AST_BRANCHES pos [c, b])
  | condCons (pos : lxpos) (c b nx : astnode) (hb : b.type = .AST_BLOCK)
      (hnx : BranchChainOk nx) :
      BranchChainOk (.mk ("conditional".toList) .AST_BRANCHES pos [c, b, nx])

/-- Token stream of `if a { } else if b { } else { }`. -/
def brTokens : List lxtoken :=
  [mktk .LX_IF [], mktk .LX_SYMBOL ['a'], mktk .LX_LEFT_BRACE [], mktk .LX_RIGHT_BRACE [],
   mktk .LX_ELSE [], mktk .LX_IF [], mktk .LX_SYMBOL ['b'], mktk .LX_LEFT_BRACE [],
   mktk .LX_RIGHT_BRACE [], mktk .LX_ELSE [], mktk .LX_LEFT_BRACE [],
   mktk .LX_RIGHT_BRACE [], tkEof]

def pBr : parser := { tokens := brTokens, position := 0 }

def emptyBlock : astnode := .mk ("block".toList) .AST_BLOCK pos0 []

def refNode (v : List Char) : astnode := .mk v .AST_REFERENCE pos0 []

/-- Tree `parse_branching` produces for `brTokens`. -/
def brTree : astnode :=
  .mk ("conditional".toList) .AST_BRANCHES pos0
    [refNode ['a'], emptyBlock,
     .mk ("conditional".toList) .AST_BRANCHES pos0
       [refNode ['b'], emptyBlock,
        .mk ("alt".toList) .AST_BRANCHES pos0 [emptyBlock]]]

def lex1err (src : List Char) : Bool :=
  match lex (lexer_new src) with
  | .err _ _ => true
  | _ => false

/-- Token vector the scanner produces for the one-letter program `a`. -/
def tsA : List lxtoken :=
  [{ value := ['a'], type := .LX_SYMBOL,
     pos := { col_pos := 0, line_pos := 0, char_offset := 0, line_offset := 0 } },
   { value := [], type := .LX_EOF,
     pos := { col_pos := 1, line_pos := 0, char_offset := 1, line_offset := 0 } }]

/-! # Theorems -/

/-- C8: the process terminates with exit status 0 in every case — `main`
returns 0 on success and `file_error`, `failure`, `lexerror` and
`parsererror` all call `exit(0)`. -/
theorem c8_exit_status_always_zero : ∀ o : run_outcome, exit_status o = 0 := by
  intro o
  cases o <;> rfl

/-- C2: `precedence` realizes exactly the spec's ten-level table on operator
glyphs — `* / %` at 10, `+ -` at 9, `< > <= >=` at 8, `== !=` at 7, `&` at 6,
`^` at 5, `|` at 4, `&&` at 3, `||` at 2 — and any other glyph hits the
`parsererror` "Unknown operator" exit. -/
theorem c2_precedence_table :
    (precedence (tkOp ['*']) = .ok 10 ∧ precedence (tkOp ['/']) = .ok 10 ∧
     precedence (tkOp ['%']) = .ok 10 ∧ precedence (tkOp ['+']) = .ok 9 ∧
     precedence (tkOp ['-']) = .ok 9 ∧ precedence (tkOp ['<']) = .ok 8 ∧
     precedence (tkOp ['>']) = .ok 8 ∧ precedence (tkOp ['<', '=']) = .ok 8 ∧
     precedence (tkOp ['>', '=']) = .ok 8 ∧ precedence (tkOp ['=', '=']) = .ok 7 ∧
     precedence (tkOp ['!', '=']) = .ok 7 ∧ precedence (tkOp ['&']) = .ok 6 ∧
     precedence (tkOp ['^']) = .ok 5 ∧ precedence (tkOp ['|']) = .ok 4 ∧
     precedence (tkOp ['&', '&']) = .ok 3 ∧ precedence (tkOp ['|', '|']) = .ok 2) ∧
    ∀ c : Char, c ∉ precSingles →
      precedence (tkOp [c]) = .error (.msg ("Unknown operator recieved")) := by
  constructor
  · decide
  · intro c hc
    simp only [precSingles, List.mem_cons, List.not_mem_nil, or_false, not_or] at hc
    obtain ⟨h1, h2, h3, h4, h5, h6, h7, h8, h9, h10⟩ := hc
    simp [precedence, tkOp, mktk, h1, h2, h3, h4, h5, h6, h7, h8, h9, h10]

theorem c2_precedence_table_witness :
    precedence (tkOp ['!']) = .error (.msg ("Unknown operator recieved")) :=
  c2_precedence_table.2 '!' (by decide)

/-- C10: with the parser at end of input (`is_empty`: position past the last
token or current token `LX_EOF`), `eat` yields `NULL` leaving the position
unchanged, `consume` fails with `parsererror`, `consume_optional` yields
`false` leaving the position unchanged; and `eat` never returns an `LX_EOF`
token. -/
theorem c10_parser_end_of_input :
    (∀ (p : parser) (t : lxtype), p.is_empty = true →
      p.eat = (none, p) ∧ p.consume t = .error (.msg ("Unexpected token")) ∧
      p.consume_optional t = (false, p)) ∧
    (∀ (p : parser) (tk : lxtoken) (p2 : parser),
      p.eat = (some tk, p2) → tk.type ≠ .LX_EOF) := by
  constructor
  · intro p t h
    refine ⟨?_, ?_, ?_⟩ <;>
      simp [parser.eat, parser.consume, parser.consume_optional, h]
  · intro p tk p2 h
    by_cases he : p.is_empty = true
    · simp [parser.eat, he] at h
    · have hb : p.is_empty = false := by
        simpa using he
      simp only [parser.eat, hb, Bool.not_false, if_true] at h
      injection h with h1 h2
      injection h1 with h1
      rw [← h1]
      simp only [parser.is_empty] at hb
      simp only [Bool.or_eq_false_iff, decide_eq_false_iff_not] at hb
      exact hb.2

theorem c10_parser_end_of_input_witness :
    (({ tokens := [], position := 0 } : parser).eat =
        (none, { tokens := [], position := 0 }) ∧
      ({ tokens := [], position := 0 } : parser).consume .LX_SYMBOL =
        .error (.msg ("Unexpected token")) ∧
      ({ tokens := [], position := 0 } : parser).consume_optional .LX_SYMBOL =
        (false, { tokens := [], position := 0 })) ∧
    (mktk .LX_SYMBOL ['a']).type ≠ .LX_EOF :=
  ⟨c10_parser_end_of_input.1 { tokens := [], position := 0 } .LX_SYMBOL (by decide),
   c10_parser_end_of_input.2 { tokens := [mktk .LX_SYMBOL ['a'], tkEof], position := 0 }
     (mktk .LX_SYMBOL ['a']) { tokens := [mktk .LX_SYMBOL ['a'], tkEof], position := 1 }
     (by decide)⟩

/-- C7 (code bug): on `"abc` — an opening quote never closed — the string
loop of `lex` runs past the end of the buffer (undefined behaviour, modelled
as `stuck`); no `UnterminatedString` error exists in the code. -/
theorem c7_unterminated_string_runs_off_buffer :
    lex (lexer_new ("\"abc".toList)) = .stuck ∧
    lex1type ("\"abc".toList) = none ∧ lex1err ("\"abc".toList) = false := by
  decide

/-- C3 counterexample: `&&` and `||` are split into two single-character
Operator tokens, and `==` / `!=` are rejected by `lexerror` (their first
characters are unknown glyphs) — none of them is emitted as one token. -/
theorem c3_counterexample :
    lexedTypes 10 ("&&".toList) = some [.LX_OPERATOR, .LX_OPERATOR, .LX_EOF] ∧
    lexedValues 10 ("&&".toList) = some [['&'], ['&'], []] ∧
    lexedTypes 10 ("||".toList) = some [.LX_OPERATOR, .LX_OPERATOR, .LX_EOF] ∧
    lex1err ("==".toList) = true ∧ lex1err ("!=".toList) = true := by
  decide

/-- C4 counterexample: the reserved-word table of the lexer in src knows only
`true`/`false`, `null` and `return`; `if`, `else`, `loop` and `include` all
come out as plain Symbol tokens, not as If/Else/Loop/Include. -/
theorem c4_counterexample :
    lex1type ("if".toList) = some .LX_SYMBOL ∧
    lex1value ("if".toList) = some ['i', 'f'] ∧
    lex1type ("else".toList) = some .LX_SYMBOL ∧
    lex1type ("loop".toList) = some .LX_SYMBOL ∧
    lex1type ("include".toList) = some .LX_SYMBOL ∧
    some lxtype.LX_SYMBOL ≠ some lxtype.LX_IF := by
  decide

/-- C1: parsing `1 OP1 2 OP2 3` over any two glyphs the parser's precedence
table accepts yields the left-grouped tree `(1 OP1 2) OP2 3` exactly when
`prec(OP1) ≥ prec(OP2)` (so equal precedence associates left), and otherwise
the right-grouped tree; and `apply_op` always makes the earlier operand the
first (left) child of the binary node. -/
theorem c1_left_assoc_shunting :
    (∀ g1 g2 : List Char, g1 ∈ glyphList → g2 ∈ glyphList →
      parse_expression 32 (mkP3 g1 g2) =
        .ok (some (if precVal g2 ≤ precVal g1 then leftTree g1 g2 else rightTree g1 g2),
          p3Done g1 g2)) ∧
    (∀ (op : lxtoken) (v0 v1 : astnode) (vs : List astnode) (ops : List lxtoken),
      apply_op (v1 :: v0 :: vs) (op :: ops) =
        (.mk op.value .AST_BINARY_EXPRESSION op.pos [v0, v1], vs, ops)) := by
  constructor
  · intro g1 g2 h1 h2
    fin_cases h1 <;> fin_cases h2 <;> rfl
  · intro op v0 v1 vs ops
    rfl

theorem c1_left_assoc_shunting_witness :
    parse_expression 32 (mkP3 ['+'] ['*']) =
      .ok (some (if precVal ['*'] ≤ precVal ['+'] then leftTree ['+'] ['*']
        else rightTree ['+'] ['*']), p3Done ['+'] ['*']) :=
  c1_left_assoc_shunting.1 ['+'] ['*'] (by decide) (by decide)

/-- Structure of every successful `lexify` run: the accumulator is extended
by filtered tokens and closed with the `LX_EOF` token. -/
theorem lexify_shape (fuel : Nat) : ∀ (lx : lexer) (acc ts : List lxtoken),
    lexify fuel lx acc = .ok ts →
    ∃ mid tkend, ts = acc ++ mid ++ [tkend] ∧ tkend.type = .LX_EOF ∧
      ∀ t ∈ mid, t.type ≠ .LX_EOF ∧ t.type ≠ .LX_WHITESPACE ∧ t.type ≠ .LX_COMMENT := by
  induction fuel with
  | zero =>
    intro lx acc ts h
    simp [lexify] at h
  | succ n ih =>
    intro lx acc ts h
    simp only [lexify] at h
    split at h
    · rename_i tk lx1 heq
      split at h
      · rename_i heof
        refine ⟨[], tk, ?_, heof, by simp⟩
        injection h with h1
        simp [h1.symm]
      · rename_i heof
        split at h
        · rename_i hkeep
          obtain ⟨mid, tkend, hts, hend, hmid⟩ := ih lx1 (acc ++ [tk]) ts h
          refine ⟨tk :: mid, tkend, ?_, hend, ?_⟩
          · simp [hts]
          · intro t ht
            rcases List.mem_cons.mp ht with rfl | hm
            · exact ⟨heof, hkeep.1, hkeep.2⟩
            · exact hmid t hm
        · exact ih lx1 acc ts h
    · exact absurd h (by simp)
    · exact absurd h (by simp)

/-- C5: every token vector an accepted source lexes to contains exactly one
`LX_EOF` token, that token is last, and no Whitespace or Comment token is
handed to the parser. -/
theorem c5_lexify_invariant (fuel : Nat) (src : List Char) (ts : List lxtoken)
    (h : lexify fuel (lexer_new src) [] = .ok ts) :
    ts.countP (fun t => t.type == .LX_EOF) = 1 ∧
    (ts.getLast?).map lxtoken.type = some .LX_EOF ∧
    ∀ t ∈ ts, t.type ≠ .LX_WHITESPACE ∧ t.type ≠ .LX_COMMENT := by
  obtain ⟨mid, tkend, hts, hend, hmid⟩ := lexify_shape fuel (lexer_new src) [] ts h
  rw [hts]
  simp only [List.nil_append]
  refine ⟨?_, ?_, ?_⟩
  · rw [List.countP_append]
    have hz : mid.countP (fun t => t.type == .LX_EOF) = 0 := by
      rw [List.countP_eq_zero]
      intro t ht
      simpa using (hmid t ht).1
    simp [hz, List.countP_cons, hend]
  · rw [List.getLast?_append]
    simp [hend]
  · intro t ht
    rcases List.mem_append.mp ht with hm | hm
    · exact ⟨(hmid t hm).2.1, (hmid t hm).2.2⟩
    · have : t = tkend := by simpa using hm
      subst this
      rw [hend]
      exact ⟨by simp, by simp⟩

theorem c5_lexify_invariant_witness :
    tsA.countP (fun t => t.type == .LX_EOF) = 1 ∧
    (tsA.getLast?).map lxtoken.type = some .LX_EOF ∧
    ∀ t ∈ tsA, t.type ≠ .LX_WHITESPACE ∧ t.type ≠ .LX_COMMENT :=
  c5_lexify_invariant 5 ("a".toList) tsA rfl

theorem lexadvance_fst (lx : lexer) : (lexadvance lx).1 = lx.lookahead := rfl

theorem pattern_fail_of_first_char (lx : lexer) (a b c : Char)
    (hla : lx.lookahead = c) (hne : c ≠ a) : patternMatches lx [a, b] = false := by
  have hg : getChar lx.source (lx.pos.char_offset + 1) = c := hla
  simp [patternMatches, matchesAt, hg, hne]

/-- The `<-` lookahead path of `lex`: one Assign token, empty value, two
characters consumed. -/
theorem lex_pattern_assign (lx : lexer) (h : patternMatches lx ['<', '-'] = true) :
    lex lx = .ok { value := [], type := .LX_ASSIGN, pos := advpos lx } (advanceN 2 lx) := by
  have hla : lx.lookahead = '<' := by
    simp only [patternMatches, matchesAt, Bool.and_eq_true, decide_eq_true_eq] at h
    exact h.1
  simp only [lex, check_pattern, h, hla]
  norm_num [isalpha, isdigit]
  rw [if_neg (by decide), if_neg (by decide), if_neg (by decide)]

/-- The `<=` lookahead path of `lex`: one Operator token, empty value. -/
theorem lex_pattern_le (lx : lexer) (h : patternMatches lx ['<', '='] = true) :
    lex lx = .ok { value := [], type := .LX_OPERATOR, pos := advpos lx } (advanceN 2 lx) := by
  have h2 := h
  simp only [patternMatches, matchesAt, Bool.and_eq_true, decide_eq_true_eq,
    and_true] at h2
  have hla : lx.lookahead = '<' := h2.1
  have hn1 : patternMatches lx ['<', '-'] = false := by
    simp [patternMatches, matchesAt, h2.1, h2.2]
  simp only [lex, check_pattern, hn1, h, hla]
  norm_num [isalpha, isdigit]
  rw [if_neg (by decide), if_neg (by decide), if_neg (by decide)]

/-- The `>=` lookahead path of `lex`: one Operator token, empty value. -/
theorem lex_pattern_ge (lx : lexer) (h : patternMatches lx ['>', '='] = true) :
    lex lx = .ok { value := [], type := .LX_OPERATOR, pos := advpos lx } (advanceN 2 lx) := by
  have h2 := h
  simp only [patternMatches, matchesAt, Bool.and_eq_true, decide_eq_true_eq,
    and_true] at h2
  have hla : lx.lookahead = '>' := h2.1
  have hn1 : patternMatches lx ['<', '-'] = false :=
    pattern_fail_of_first_char lx '<' '-' '>' hla (by decide)
  have hn2 : patternMatches lx ['<', '='] = false :=
    pattern_fail_of_first_char lx '<' '=' '>' hla (by decide)
  simp only [lex, check_pattern, hn1, hn2, h, hla]
  norm_num [isalpha, isdigit]
  rw [if_neg (by decide), if_neg (by decide), if_neg (by decide)]

/-- Single-character fallthrough of `lex` for an operator glyph: the token
value is exactly that glyph. -/
theorem lex_single_op (lx : lexer) (c : Char) (hla : lx.lookahead = c)
    (hc : c ∈ opChars) (hn1 : patternMatches lx ['<', '-'] = false)
    (hn2 : patternMatches lx ['<', '='] = false)
    (hn3 : patternMatches lx ['>', '='] = false) :
    lex lx = .ok { value := [c], type := .LX_OPERATOR, pos := advpos lx }
      (lexadvance lx).2 := by
  fin_cases hc <;>
    (simp only [lex, check_pattern, hn1, hn2, hn3, lexadvance_fst, hla]
     norm_num [isalpha, isdigit]
     rw [if_neg (by decide), if_neg (by decide), if_neg (by decide), if_neg (by decide),
       if_neg (by decide), if_neg (by decide), if_neg (by decide), if_neg (by decide),
       if_pos (by decide)])

/-- `=` and `!` are not recognized by the scanner in src: they fall through
every case to `lexerror`. -/
theorem lex_unknown_glyph (lx : lexer) (c : Char) (hla : lx.lookahead = c)
    (hc : c = '=' ∨ c = '!') :
    lex lx = .err ("Syntax error! Failed to identify symbol") (lexadvance lx).2 := by
  have hn1 : patternMatches lx ['<', '-'] = false :=
    pattern_fail_of_first_char lx '<' '-' c hla (by rcases hc with rfl | rfl <;> decide)
  have hn2 : patternMatches lx ['<', '='] = false :=
    pattern_fail_of_first_char lx '<' '=' c hla (by rcases hc with rfl | rfl <;> decide)
  have hn3 : patternMatches lx ['>', '='] = false :=
    pattern_fail_of_first_char lx '>' '=' c hla (by rcases hc with rfl | rfl <;> decide)
  rcases hc with rfl | rfl <;>
    (simp only [lex, check_pattern, hn1, hn2, hn3, lexadvance_fst, hla]
     norm_num [isalpha, isdigit]
     rw [if_neg (by decide), if_neg (by decide), if_neg (by decide), if_neg (by decide),
       if_neg (by decide), if_neg (by decide), if_neg (by decide), if_neg (by decide),
       if_neg (by decide), if_neg (by decide), if_neg (by decide), if_neg (by decide),
       if_neg (by decide), if_neg (by decide), if_neg (by decide)])

/-- C3 (amended): the lookahead pass of the lexer recognizes only `<-` (one
Assign token), `<=` and `>=` (one Operator token each); `&` and `|` always
lex as single-character Operator tokens, so `&&` and `||` are split in two,
and `=` / `!` (hence `==` and `!=`) hit the `lexerror` exit. -/
theorem c3_multichar_operators :
    (∀ lx : lexer, patternMatches lx ['<', '-'] = true →
      lex lx = .ok { value := [], type := .LX_ASSIGN, pos := advpos lx } (advanceN 2 lx)) ∧
    (∀ lx : lexer, patternMatches lx ['<', '='] = true →
      lex lx = .ok { value := [], type := .LX_OPERATOR, pos := advpos lx } (advanceN 2 lx)) ∧
    (∀ lx : lexer, patternMatches lx ['>', '='] = true →
      lex lx = .ok { value := [], type := .LX_OPERATOR, pos := advpos lx } (advanceN 2 lx)) ∧
    (∀ lx : lexer, lx.lookahead = '&' →
      lex lx = .ok { value := ['&'], type := .LX_OPERATOR, pos := advpos lx }
        (lexadvance lx).2) ∧
    (∀ lx : lexer, lx.lookahead = '|' →
      lex lx = .ok { value := ['|'], type := .LX_OPERATOR, pos := advpos lx }
        (lexadvance lx).2) ∧
    (∀ lx : lexer, lx.lookahead = '=' →
      lex lx = .err ("Syntax error! Failed to identify symbol") (lexadvance lx).2) ∧
    (∀ lx : lexer, lx.lookahead = '!' →
      lex lx = .err ("Syntax error! Failed to identify symbol") (lexadvance lx).2) := by
  refine ⟨lex_pattern_assign, lex_pattern_le, lex_pattern_ge, ?_, ?_, ?_, ?_⟩
  · intro lx hla
    exact lex_single_op lx '&' hla (by decide)
      (pattern_fail_of_first_char lx '<' '-' '&' hla (by decide))
      (pattern_fail_of_first_char lx '<' '=' '&' hla (by decide))
      (pattern_fail_of_first_char lx '>' '=' '&' hla (by decide))
  · intro lx hla
    exact lex_single_op lx '|' hla (by decide)
      (pattern_fail_of_first_char lx '<' '-' '|' hla (by decide))
      (pattern_fail_of_first_char lx '<' '=' '|' hla (by decide))
      (pattern_fail_of_first_char lx '>' '=' '|' hla (by decide))
  · intro lx hla
    exact lex_unknown_glyph lx '=' hla (Or.inl rfl)
  · intro lx hla
    exact lex_unknown_glyph lx '!' hla (Or.inr rfl)

theorem c3_multichar_operators_witness :
    lex (lexer_new ("<-x".toList)) =
      .ok { value := [], type := .LX_ASSIGN, pos := advpos (lexer_new ("<-x".toList)) }
        (advanceN 2 (lexer_new ("<-x".toList))) ∧
    lex (lexer_new ("<=".toList)) =
      .ok { value := [], type := .LX_OPERATOR, pos := advpos (lexer_new ("<=".toList)) }
        (advanceN 2 (lexer_new ("<=".toList))) ∧
    lex (lexer_new (">=".toList)) =
      .ok { value := [], type := .LX_OPERATOR, pos := advpos (lexer_new (">=".toList)) }
        (advanceN 2 (lexer_new (">=".toList))) ∧
    lex (lexer_new ("&&".toList)) =
      .ok { value := ['&'], type := .LX_OPERATOR, pos := advpos (lexer_new ("&&".toList)) }
        (lexadvance (lexer_new ("&&".toList))).2 ∧
    lex (lexer_new ("||".toList)) =
      .ok { value := ['|'], type := .LX_OPERATOR, pos := advpos (lexer_new ("||".toList)) }
        (lexadvance (lexer_new ("||".toList))).2 ∧
    lex (lexer_new ("==".toList)) =
      .err ("Syntax error! Failed to identify symbol") (lexadvance (lexer_new ("==".toList))).2 ∧
    lex (lexer_new ("!=".toList)) =
      .err ("Syntax error! Failed to identify symbol") (lexadvance (lexer_new ("!=".toList))).2 :=
  ⟨c3_multichar_operators.1 (lexer_new ("<-x".toList)) (by decide),
   c3_multichar_operators.2.1 (lexer_new ("<=".toList)) (by decide),
   c3_multichar_operators.2.2.1 (lexer_new (">=".toList)) (by decide),
   c3_multichar_operators.2.2.2.1 (lexer_new ("&&".toList)) (by decide),
   c3_multichar_operators.2.2.2.2.1 (lexer_new ("||".toList)) (by decide),
   c3_multichar_operators.2.2.2.2.2.1 (lexer_new ("==".toList)) (by decide),
   c3_multichar_operators.2.2.2.2.2.2 (lexer_new ("!=".toList)) (by decide)⟩

/-- C9: every token emitted through the multi-character pattern path — the
Assign token for `<-` and the Operator tokens for `<=` / `>=` — carries the
empty string as value (the character buffer is never filled there), while a
token emitted by the single-character operator fallthrough carries exactly
its glyph. -/
theorem c9_token_values :
    (∀ (lx : lexer) (tk : lxtoken) (lx2 : lexer), patternMatches lx ['<', '-'] = true →
      lex lx = .ok tk lx2 → tk.value = []) ∧
    (∀ (lx : lexer) (tk : lxtoken) (lx2 : lexer), patternMatches lx ['<', '='] = true →
      lex lx = .ok tk lx2 → tk.value = []) ∧
    (∀ (lx : lexer) (tk : lxtoken) (lx2 : lexer), patternMatches lx ['>', '='] = true →
      lex lx = .ok tk lx2 → tk.value = []) ∧
    (∀ (lx : lexer) (c : Char) (tk : lxtoken) (lx2 : lexer), lx.lookahead = c →
      c ∈ opChars → patternMatches lx ['<', '-'] = false →
      patternMatches lx ['<', '='] = false → patternMatches lx ['>', '='] = false →
      lex lx = .ok tk lx2 → tk.value = [c]) := by
  refine ⟨?_, ?_, ?_, ?_⟩
  · intro lx tk lx2 h hok
    rw [lex_pattern_assign lx h] at hok
    injection hok with h1 h2
    rw [← h1]
  · intro lx tk lx2 h hok
    rw [lex_pattern_le lx h] at hok
    injection hok with h1 h2
    rw [← h1]
  · intro lx tk lx2 h hok
    rw [lex_pattern_ge lx h] at hok
    injection hok with h1 h2
    rw [← h1]
  · intro lx c tk lx2 hla hc hn1 hn2 hn3 hok
    rw [lex_single_op lx c hla hc hn1 hn2 hn3] at hok
    injection hok with h1 h2
    rw [← h1]

theorem c9_token_values_witness :
    ({ value := [], type := lxtype.LX_ASSIGN,
       pos := advpos (lexer_new ("<-".toList)) } : lxtoken).value = [] ∧
    ({ value := ['+'], type := lxtype.LX_OPERATOR,
       pos := advpos (lexer_new ("+".toList)) } : lxtoken).value = ['+'] :=
  ⟨c9_token_values.1 (lexer_new ("<-".toList)) _ (advanceN 2 (lexer_new ("<-".toList)))
     (by decide) rfl,
   c9_token_values.2.2.2 (lexer_new ("+".toList)) '+' _
     ((lexadvance (lexer_new ("+".toList))).2) rfl (by decide) (by decide) (by decide)
     (by decide) rfl⟩

/-- C4 (amended): an identifier token (letter or `_` start) gets its kind
from `determine_nature`, whose reserved-word table maps only `true`/`false`
to Bool, `null` to Null and `return` to Return; every other identifier —
including `if`, `else`, `loop` and `include` — becomes a Symbol token. -/
theorem c4_reserved_words :
    (∀ (lx : lexer) (tk : lxtoken) (lx2 : lexer),
      (isalpha lx.lookahead || lx.lookahead = '_') = true →
      lex lx = .ok tk lx2 → tk.type = determine_nature tk.value) ∧
    determine_nature ("true".toList) = .LX_BOOL ∧
    determine_nature ("false".toList) = .LX_BOOL ∧
    determine_nature ("null".toList) = .LX_NULL ∧
    determine_nature ("return".toList) = .LX_RETURN ∧
    (∀ s : List Char, s ≠ "true".toList → s ≠ "false".toList → s ≠ "null".toList →
      s ≠ "return".toList → determine_nature s = .LX_SYMBOL) := by
  refine ⟨?_, rfl, rfl, rfl, rfl, ?_⟩
  · intro lx tk lx2 hcond hok
    simp only [lex, hcond] at hok
    rw [if_pos trivial] at hok
    injection hok with h1 h2
    rw [← h1]
  · intro s h1 h2 h3 h4
    simp only [determine_nature]
    rw [if_neg (fun hh => Or.elim hh (fun g => h2 g) (fun g => h1 g)),
      if_neg (fun g => h3 g), if_neg (fun g => h4 g)]

theorem c4_reserved_words_witness :
    ({ value := ['i', 'f'], type := lxtype.LX_SYMBOL,
       pos := { col_pos := 0, line_pos := 0, char_offset := 0, line_offset := 0 } } :
        lxtoken).type =
      determine_nature
        ({ value := ['i', 'f'], type := lxtype.LX_SYMBOL,
           pos := { col_pos := 0, line_pos := 0, char_offset := 0, line_offset := 0 } } :
          lxtoken).value ∧
    determine_nature ("if".toList) = .LX_SYMBOL :=
  ⟨c4_reserved_words.1 (lexer_new ("if".toList)) _
     { source := "if".toList,
       pos := { col_pos := 1, line_pos := 0, char_offset := 1, line_offset := 0 } }
     (by decide) rfl,
   c4_reserved_words.2.2.2.2.2 ("if".toList) (by decide) (by decide) (by decide)
     (by decide)⟩

theorem pushChild_type (b c : astnode) : (pushChild b c).type = b.type := by
  cases b
  rfl

theorem parseGo_blockLoop_shape (n : Nat) : ∀ (t : lxtype) (blk : astnode) (p : parser)
    (r : Option astnode) (p2 : parser), parseGo n (.blockLoop t blk) p = .ok (r, p2) →
    ∃ nd, r = some nd ∧ nd.type = blk.type := by
  induction n with
  | zero =>
    intro t blk p r p2 h
    simp [parseGo] at h
  | succ n ih =>
    intro t blk p r p2 h
    simp only [parseGo, bindNode] at h
    split at h
    · split at h
      · rename_i st p1 hst
        obtain ⟨nd, hr, htype⟩ := ih t (pushChild blk st) (strip_newlines p1) r p2 h
        exact ⟨nd, hr, by rwa [pushChild_type] at htype⟩
      · simp at h
      · simp at h
    · injection h with h1
      injection h1 with ha hb
      exact ⟨blk, ha.symm, rfl⟩

theorem parseGo_block_type (n : Nat) (t : lxtype) (p : parser) (r : Option astnode)
    (p2 : parser) (h : parseGo n (.block t) p = .ok (r, p2)) :
    ∃ nd, r = some nd ∧ nd.type = .AST_BLOCK := by
  cases n with
  | zero => simp [parseGo] at h
  | succ n =>
    simp only [parseGo] at h
    exact parseGo_blockLoop_shape n t _ _ r p2 h

theorem parseGo_elseChain_shape (n : Nat) : ∀ (p : parser) (r : Option astnode) (p2 : parser),
    parseGo n .elseChain p = .ok (r, p2) →
    r = none ∨ ∃ nd, r = some nd ∧ BranchChainOk nd := by
  induction n with
  | zero =>
    intro p r p2 h
    simp [parseGo] at h
  | succ n ih =>
    intro p r p2 h
    simp only [parseGo, bindNode, bindTok] at h
    split at h
    · -- peek is LX_ELSE
      split at h
      · -- eat returned (some etok, p1)
        rename_i etok p1 heat
        split at h
        · -- else-if: conditional branch
          split at h
          · rename_i cond pc hcond
            split at h
            · rename_i lb p3 hlb
              split at h
              · rename_i body p4 hbody
                split at h
                · rename_i rb p5 hrb
                  split at h
                  · rename_i rest p6 hrest
                    injection h with h1
                    injection h1 with ha hb
                    obtain ⟨ndb, hrb2, htb⟩ := parseGo_block_type n _ _ _ _ hbody
                    injection hrb2 with hrb3
                    rcases ih _ _ _ hrest with hnone | ⟨nx, hx, hok⟩
                    · subst hnone
                      refine Or.inr ⟨_, ha.symm, ?_⟩
                      simp only [Option.toList]
                      exact BranchChainOk.condLast _ _ _ (hrb3 ▸ htb)
                    · subst hx
                      refine Or.inr ⟨_, ha.symm, ?_⟩
                      simp only [Option.toList]
                      exact BranchChainOk.condCons _ _ _ _ (hrb3 ▸ htb) hok
                  · simp at h
                · simp at h
              · simp at h
              · simp at h
            · simp at h
          · simp at h
          · simp at h
        · -- bare else: alt branch
          split at h
          · rename_i lb p3 hlb
            split at h
            · rename_i body p4 hbody
              split at h
              · rename_i rb p5 hrb
                injection h with h1
                injection h1 with ha hb
                obtain ⟨ndb, hrb2, htb⟩ := parseGo_block_type n _ _ _ _ hbody
                injection hrb2 with hrb3
                exact Or.inr ⟨_, ha.symm, BranchChainOk.alt _ _ (hrb3 ▸ htb)⟩
              · simp at h
            · simp at h
            · simp at h
          · simp at h
      · -- eat returned none
        simp at h
    · -- no else: chain ends
      injection h with h1
      injection h1 with ha hb
      exact Or.inl ha.symm

/-- C6: `parse_branching` returns a right-leaning chain of `Branches` nodes:
the root and every `else if` node carry value `"conditional"` with children
condition, body block and (as last child) optionally the next branch; a bare
`else` terminates the chain with an `"alt"` node holding exactly its body
block, after which no branch is parsed. -/
theorem c6_else_chain_shape (fuel : Nat) (p : parser) (nd : astnode) (p2 : parser)
    (h : parse_branching fuel p = .ok (some nd, p2)) :
    nd.value = "conditional".toList ∧ nd.type = .AST_BRANCHES ∧ BranchChainOk nd := by
  cases fuel with
  | zero => simp [parse_branching, parseGo] at h
  | succ n =>
    simp only [parse_branching, parseGo, bindNode, bindTok] at h
    split at h
    · rename_i itok p1 hif
      split at h
      · rename_i cond pc hcond
        split at h
        · rename_i lb p3 hlb
          split at h
          · rename_i body p4 hbody
            split at h
            · rename_i rb p5 hrb
              split at h
              · rename_i rest p6 hrest
                injection h with h1
                injection h1 with ha hb
                obtain ⟨ndb, hrb2, htb⟩ := parseGo_block_type n _ _ _ _ hbody
                injection hrb2 with hrb3
                injection ha with ha2
                subst ha2
                rcases parseGo_elseChain_shape n _ _ _ hrest with hnone | ⟨nx, hx, hok⟩
                · subst hnone
                  exact ⟨rfl, rfl, by
                    simp only [Option.toList]
                    exact BranchChainOk.condLast _ _ _ (hrb3 ▸ htb)⟩
                · subst hx
                  exact ⟨rfl, rfl, by
                    simp only [Option.toList]
                    exact BranchChainOk.condCons _ _ _ _ (hrb3 ▸ htb) hok⟩
              · simp at h
            · simp at h
          · simp at h
          · simp at h
        · simp at h
      · simp at h
      · simp at h
    · simp at h

theorem c6_else_chain_shape_witness :
    brTree.value = "conditional".toList ∧ brTree.type = .AST_BRANCHES ∧
    BranchChainOk brTree :=
  c6_else_chain_shape 32 pBr brTree { tokens := brTokens, position := 12 } rfl

/-- C10 counterexample: with the parser at end of input, `consume` does not
return NULL — it reaches the `parsererror` exit(0) (the `return NULL` after
that call is dead code), modelled as the error outcome rather than a
returned value. -/
theorem c10_counterexample :
    ({ tokens := [], position := 0 } : parser).is_empty = true ∧
    ({ tokens := [], position := 0 } : parser).consume .LX_SYMBOL =
      .error (.msg ("Unexpected token")) := by
  decide
